import Mathlib

/-!
Verification development for the `db` repository: a generic HTTP façade over a
relational database (`db_explorer.go`).  The Go code is shallowly embedded:

* `Jval` models the dynamically typed scalar values the database driver decodes
  (`interface{}` in Go) as well as the JSON trees the handlers encode.
* `Resp` models one HTTP response: a numeric status and a body, where the body
  is either the plain string passed to `http.Error` or a JSON document passed
  to `json.NewEncoder(w).Encode`.
* `Query` models one SQL statement sent to the database collaborator: its text
  and the list of bound parameters.  Each handler returns, next to its
  response, the list of queries it issued, in order.
* Path parsing (`strings.Trim`, `strings.Split`) is embedded character by
  character (`trimSlashes`, `splitSlash`).
* The database collaborator of `database/sql` is external to the repository,
  so each handler is parametrised by the outcome of its database calls
  (`Except`-valued oracles); `serveHTTP` is likewise parametrised by the four
  non-stub sub-handlers it dispatches to.
-/

namespace DbExp

/-- Dynamically typed scalar / JSON value: models both the Go driver's generic
decode targets (`interface{}` holding int64, float, text, bool, null, bytes)
and the JSON trees built by the handlers (`map[string]interface{}`,
slices).  Objects are association lists in the order the Go code builds
them. -/
inductive Jval where
  | null
  | bool (b : Bool)
  | int (n : Int)
  | num (q : Rat)
  | str (s : String)
  | arr (xs : List Jval)
  | obj (fields : List (String × Jval))

/-- A response body: either the raw string written by `http.Error`, or the
JSON document written by `json.NewEncoder(w).Encode`. -/
inductive Body where
  | text (s : String)
  | json (j : Jval)

/-- One HTTP response: status code and body.  `http.Error(w, msg, code)`
becomes `⟨code, .text msg⟩`; a successful `Encode` without `WriteHeader`
becomes `⟨200, .json j⟩`. -/
structure Resp where
  status : Nat
  body : Body

/-- One SQL statement issued to the database: the statement text exactly as
the Go code builds it, and the bound parameters (empty when the code
interpolates everything into the text). -/
structure Query where
  text : String
  params : List Jval

/-- `http.Error(w, msg, code)`. -/
def respText (msg : String) (code : Nat) : Resp := ⟨code, Body.text msg⟩

/-- A `200` response whose body is JSON-encoded, as produced by
`json.NewEncoder(w).Encode` with no prior `WriteHeader`. -/
def respJson (j : Jval) : Resp := ⟨200, Body.json j⟩

/-- The literal bodies the Go code passes to `http.Error` for its structured
errors, e.g. `jsonError "unknown table"` is the source text
`\x7b"error": "unknown table"\x7d`. -/
def jsonError (msg : String) : String :=
  "\x7b\"error\": \"" ++ msg ++ "\"\x7d"

/-- The text of the `database/sql` error returned by `Rows.Scan` when the
number of destination pointers does not match the result's column count:
`sql: expected <result cols> destination arguments in Scan, not <dest>`. -/
def scanMismatch (resultCols destCount : Nat) : String :=
  "sql: expected " ++ toString resultCols ++
    " destination arguments in Scan, not " ++ toString destCount

/-- `strings.Trim(path, "/")`: drop every leading and trailing `/`. -/
def trimSlashes (s : String) : String :=
  String.mk (((s.toList.dropWhile (fun c => c == '/')).reverse.dropWhile
      (fun c => c == '/')).reverse)

/-- Worker for `splitSlash`: accumulate the current segment (reversed) and cut
at every `/`, exactly like `strings.Split(path, "/")`. -/
def splitSlashAux : List Char → List Char → List String
  | [], acc => [String.mk acc.reverse]
  | c :: cs, acc =>
      if c == '/' then String.mk acc.reverse :: splitSlashAux cs []
      else splitSlashAux cs (c :: acc)

/-- `strings.Split(s, "/")`.  Never returns `[]`; on `""` it returns
`[""]`, as in Go. -/
def splitSlash (s : String) : List String := splitSlashAux s.toList []

/-- One decoded row as the Go code builds it: `rowMap[colName] = val`,
inserted following the column-name list, so modelled as the object that
zips the column names with the scanned values. -/
def rowObj (cols : List String) (r : List Jval) : Jval := Jval.obj (cols.zip r)

/-- The `result = append(result, rowMap)` loop of `handleGetTable`: `result`
starts as a nil slice (`none`) and each row appends one object; a nil slice
JSON-encodes as `null`, a non-nil one as an array. -/
def listRows (cols : List String) : List (List Jval) → Option (List Jval) → Option (List Jval)
  | [], acc => acc
  | r :: rs, acc => listRows cols rs (some (acc.getD [] ++ [rowObj cols r]))

/-- Go's `encoding/json` on the `result` slice: nil encodes as JSON `null`,
non-nil as an array. -/
def encodeRecords : Option (List Jval) → Jval
  | none => Jval.null
  | some xs => Jval.arr xs

/-- `handleRoot`: collect the Catalog's table names (the input list is one
iteration order of the Go map), sort them with `sort.Strings`, and encode
`\x7b"response": \x7b"tables": [...]\x7d\x7d`.  Issues no query. -/
def handleRoot (tableNames : List String) : Resp × List Query :=
  (respJson (Jval.obj [("response", Jval.obj
      [("tables", Jval.arr ((tableNames.insertionSort (fun a b => a ≤ b)).map Jval.str))])]),
   [])

/-- `handleGetTable`: read `limit` / `offset` from the query string (`""`
stands for an absent or empty parameter, as `URL.Query().Get` returns),
default them to `100` / `0`, splice them and the table name into the SQL
text (no bound parameters), run the query through the collaborator oracle
`exec`, and either surface the raw error with `500` or decode every row
keyed by the result set's own column list. -/
def handleGetTable (tableName limit offset : String)
    (exec : String → Except String (List String × List (List Jval))) :
    Resp × List Query :=
  let limitValue := if limit = "" then "100" else limit
  let offsetValue := if offset = "" then "0" else offset
  let query := "SELECT * FROM " ++ tableName ++ " LIMIT " ++ limitValue ++
    " OFFSET " ++ offsetValue
  (match exec query with
   | Except.error e => respText e 500
   | Except.ok (cols, rs) =>
       respJson (Jval.obj [("response", Jval.obj
         [("records", encodeRecords (listRows cols rs none))])]),
   [⟨query, []⟩])

/-- The `for key, value := range data` loop of `handlePutTable`: skip `"id"`,
append `key = $<len(values)+1>` to the SET clauses and the value to the
bound-parameter list.  The input order is one iteration order of the Go
map. -/
def putLoop : List (String × Jval) → List String → List Jval → List String × List Jval
  | [], clauses, values => (clauses, values)
  | (k, v) :: rest, clauses, values =>
      if k == "id" then putLoop rest clauses values
      else putLoop rest (clauses ++ [k ++ " = $" ++ toString (values.length + 1)])
        (values ++ [v])

/-- `handlePutTable`: `body = none` models a JSON body that
`json.Decoder.Decode` could not decode into a map (malformed JSON or a
non-object document); `body = some data` is the decoded object in one
iteration order.  Requires an `id` field, builds the `UPDATE` statement
with bound parameters, and runs it through the collaborator oracle
`execRes`. -/
def handlePutTable (tableName : String) (body : Option (List (String × Jval)))
    (execRes : Except String Unit) : Resp × List Query :=
  match body with
  | none => (respText "Invalid JSON" 400, [])
  | some data =>
    match data.lookup "id" with
    | none => (respText "Missing \x27id\x27 field" 400, [])
    | some idv =>
      let pair := putLoop data [] []
      let values := pair.2 ++ [idv]
      let query := "UPDATE " ++ tableName ++ " SET " ++
        String.intercalate ", " pair.1 ++ " WHERE id = $" ++ toString values.length
      match execRes with
      | Except.error e =>
          (respText ("Error updating record: " ++ e) 500, [⟨query, values⟩])
      | Except.ok _ =>
          (⟨200, Body.json (Jval.obj [("response", Jval.obj [("id", idv)])])⟩,
           [⟨query, values⟩])

/-- The column-metadata statement issued by `handleGetRecord`. -/
def columnsMetaSQL : String :=
  "SELECT column_name FROM information_schema.columns WHERE table_name = $1"

/-- `handleGetRecord`: `db.QueryRow` issues the `SELECT * ... WHERE id = $1`
immediately (its error is deferred to `Scan`), then the column-metadata
query runs; so both statements are always issued, in that order.
`selectRes` is the collaborator's outcome for the row (`ok none` models
`sql.ErrNoRows`), `columnsRes` the outcome of the metadata query whose
scanned names key the decoded record.  `Row.Scan` reports, in order: the
deferred query error, `ErrNoRows`, then an argument-count mismatch. -/
def handleGetRecord (tableName id : String)
    (selectRes : Except String (Option (List Jval)))
    (columnsRes : Except String (List String)) : Resp × List Query :=
  (match columnsRes with
   | Except.error e => respText e 500
   | Except.ok columnNames =>
     match selectRes with
     | Except.error e => respText e 500
     | Except.ok none => respText (jsonError "record not found") 404
     | Except.ok (some vs) =>
         if columnNames.length = vs.length then
           respJson (Jval.obj [("response", Jval.obj
             [("record", rowObj columnNames vs)])])
         else respText (scanMismatch vs.length columnNames.length) 500,
   [⟨"SELECT * FROM " ++ tableName ++ " WHERE id = $1", [Jval.str id]⟩,
    ⟨columnsMetaSQL, [Jval.str tableName]⟩])

/-- `handlePostRecord`: permanent stub, `501` plain text, no query. -/
def handlePostRecord (tableName id : String) : Resp × List Query :=
  (respText "POST operation not implemented for this table" 501, [])

/-- `handleDeleteRecord`: permanent stub, `501` plain text, no query. -/
def handleDeleteRecord (tableName id : String) : Resp × List Query :=
  (respText "DELETE operation not implemented for this table" 501, [])

/-- Lift a sub-handler result into the `ServeHTTP` result: the response was
written (`some`) and the sub-handler's queries were issued. -/
def wrote (p : Resp × List Query) : Option Resp × List Query := (some p.1, p.2)

/-- `ServeHTTP`: trim and split the path, special-case the root, reject a
first segment that is not a Catalog key with `404` before any query,
then dispatch on segment count and method.  `catalog` is the key set of
`de.tables`; the four non-stub sub-handlers are passed in (the stubs are
called directly).  A three-or-more-segment path with a known table falls
out of the method dispatch entirely: nothing is written (`none`) and no
query is issued. -/
def serveHTTP (catalog : List String) (method path : String)
    (hRoot : Resp × List Query)
    (hGetTable hPutTable : String → Resp × List Query)
    (hGetRecord : String → String → Resp × List Query) :
    Option Resp × List Query :=
  match splitSlash (trimSlashes path) with
  | [] => (none, [])
  | tableName :: rest =>
    if tableName = "" ∧ rest = [] then wrote hRoot
    else if tableName ∈ catalog then
      match rest with
      | [] =>
        if method = "GET" then wrote (hGetTable tableName)
        else if method = "PUT" then wrote (hPutTable tableName)
        else wrote (respText "Method not allowed" 405, [])
      | [id] =>
        if method = "GET" then wrote (hGetRecord tableName id)
        else if method = "POST" then wrote (handlePostRecord tableName id)
        else if method = "DELETE" then wrote (handleDeleteRecord tableName id)
        else wrote (respText "Method not allowed" 405, [])
      | _ => (none, [])
    else wrote (respText (jsonError "unknown table") 404, [])

/-- One database table as the collaborator stores it: columns in ordinal
order and rows as value lists in that column order. -/
structure Table where
  cols : List String
  rows : List (List Jval)

/-- Collaborator model of a successful `SELECT * FROM t LIMIT lim OFFSET off`:
the result set's own columns are the table's columns and the rows are the
requested page, `lim` and `off` being the numeric values of the
interpolated pagination text. -/
def execList (tbl : Table) (lim off : Nat) :
    String → Except String (List String × List (List Jval)) :=
  fun _ => Except.ok (tbl.cols, (tbl.rows.drop off).take lim)

/-- The body fields other than `id`, in iteration order. -/
def nonId (data : List (String × Jval)) : List (String × Jval) :=
  data.filter (fun kv => !(kv.1 == "id"))

/-- The SET clauses `k = $n` produced for a field list when the first bound
parameter has index `n`. -/
def clausesFrom : Nat → List (String × Jval) → List String
  | _, [] => []
  | n, (k, _) :: rest => (k ++ " = $" ++ toString n) :: clausesFrom (n + 1) rest

/-- A sub-handler result standing in for an arbitrary handler in closed
instances of the routing theorems. -/
def noopH : Resp × List Query := (respText "" 200, [])

/-- Table-level stand-in handler for closed routing instances. -/
def noopT (tableName : String) : Resp × List Query := noopH

/-- Record-level stand-in handler for closed routing instances. -/
def noopR (tableName id : String) : Resp × List Query := noopH

/-- A one-row, one-column table used for concrete instances. -/
def tbl1 : Table := ⟨["id"], [[Jval.int 1]]⟩

/-- Claim C1 as stated is false: `ServeHTTP` checks the Catalog before the
method dispatch, so `POST /absent/1` with an empty Catalog answers `404`
(unknown table), not `501`. -/
theorem post_delete_stub_cex :
    (serveHTTP [] "POST" "/absent/1" noopH noopT noopT noopR).1.map Resp.status
        = some 404 ∧
    ¬ ((serveHTTP [] "POST" "/absent/1" noopH noopT noopT noopR).1.map Resp.status
        = some 501) :=
  ⟨rfl, by decide⟩

/-- Claim C1, amended: for every POST or DELETE request on a two-segment path
whose first segment is in the Catalog, the handler returns status `501`
with a plain-text body, regardless of the id value, and issues no database
query (an unknown first segment instead yields the `404` unknown-table
response). -/
theorem post_delete_stub_501 (catalog : List String) (method path t id : String)
    (hR : Resp × List Query) (hGT hPT : String → Resp × List Query)
    (hGR : String → String → Resp × List Query)
    (hm : method = "POST" ∨ method = "DELETE")
    (hsplit : splitSlash (trimSlashes path) = [t, id])
    (ht : t ∈ catalog) :
    ∃ b : String,
      serveHTTP catalog method path hR hGT hPT hGR =
        (some ⟨501, Body.text b⟩, []) := by
  rcases hm with rfl | rfl
  · refine ⟨"POST operation not implemented for this table", ?_⟩
    unfold serveHTTP
    rw [hsplit]
    simp [ht, wrote, handlePostRecord, respText]
  · refine ⟨"DELETE operation not implemented for this table", ?_⟩
    unfold serveHTTP
    rw [hsplit]
    simp [ht, wrote, handleDeleteRecord, respText]

/-- Concrete instance of `post_delete_stub_501`: `POST /items/9` with `items`
in the Catalog. -/
theorem post_delete_stub_501_w :
    ∃ b : String,
      serveHTTP ["items"] "POST" "/items/9" noopH noopT noopT noopR =
        (some ⟨501, Body.text b⟩, []) :=
  post_delete_stub_501 ["items"] "POST" "/items/9" "items" "9"
    noopH noopT noopT noopR (Or.inl rfl) (by decide) (by decide)

/-- Claim C4: a request whose first path segment is non-empty and not a
Catalog key answers `404` with the literal unknown-table error body, for
every method and for one- and two-segment paths, issuing no database
query. -/
theorem unknown_table_404 (catalog : List String) (method path t : String)
    (rest : List String) (hR : Resp × List Query)
    (hGT hPT : String → Resp × List Query)
    (hGR : String → String → Resp × List Query)
    (hsplit : splitSlash (trimSlashes path) = t :: rest)
    (hne : t ≠ "") (hlen : rest.length ≤ 1) (ht : t ∉ catalog) :
    serveHTTP catalog method path hR hGT hPT hGR =
      (some (respText (jsonError "unknown table") 404), []) := by
  unfold serveHTTP
  rw [hsplit]
  simp [hne, ht, wrote, respText]

/-- Concrete instance of `unknown_table_404`: `GET /nope` with Catalog
`["items"]`. -/
theorem unknown_table_404_w :
    serveHTTP ["items"] "GET" "/nope" noopH noopT noopT noopR =
      (some (respText (jsonError "unknown table") 404), []) :=
  unknown_table_404 ["items"] "GET" "/nope" "nope" [] noopH noopT noopT noopR
    (by decide) (by decide) (by decide) (by decide)

/-- Claim C10: a path of three or more segments whose first segment is in the
Catalog produces no response at all — `ServeHTTP` falls through its final
`if` with nothing written and no query issued, for every method. -/
theorem deep_path_no_response (catalog : List String) (method path t a b : String)
    (rest : List String) (hR : Resp × List Query)
    (hGT hPT : String → Resp × List Query)
    (hGR : String → String → Resp × List Query)
    (hsplit : splitSlash (trimSlashes path) = t :: a :: b :: rest)
    (ht : t ∈ catalog) :
    serveHTTP catalog method path hR hGT hPT hGR = (none, []) := by
  unfold serveHTTP
  rw [hsplit]
  simp [ht]

/-- Concrete instance of `deep_path_no_response`: `GET /items/1/extra`. -/
theorem deep_path_no_response_w :
    serveHTTP ["items"] "GET" "/items/1/extra" noopH noopT noopT noopR =
      (none, []) :=
  deep_path_no_response ["items"] "GET" "/items/1/extra" "items" "1" "extra" []
    noopH noopT noopT noopR (by decide) (by decide)

/-- Claim C5: the list query is built by splicing the table name and the raw
`limit` / `offset` strings into the SQL text, with `100` and `0`
substituted when the query parameter is absent or empty, and the statement
carries no bound parameters. -/
theorem get_table_query_text (t lim off : String)
    (exec : String → Except String (List String × List (List Jval))) :
    (handleGetTable t lim off exec).2 =
      [⟨"SELECT * FROM " ++ t ++ " LIMIT " ++ (if lim = "" then "100" else lim) ++
          " OFFSET " ++ (if off = "" then "0" else off), []⟩] := rfl

/-- Behind the `listRows` accumulation: starting from a non-nil slice the
loop appends one decoded object per row. -/
theorem listRows_some (cols : List String) (rs : List (List Jval)) (l : List Jval) :
    listRows cols rs (some l) = some (l ++ rs.map (rowObj cols)) := by
  induction rs generalizing l with
  | nil => simp [listRows]
  | cons r rs ih => simp [listRows, ih]

/-- From the nil slice, a non-empty row list yields exactly the decoded
objects of those rows. -/
theorem listRows_none_cons (cols : List String) (r : List Jval)
    (rs : List (List Jval)) :
    listRows cols (r :: rs) none = some ((r :: rs).map (rowObj cols)) := by
  simp [listRows, listRows_some]

/-- Claim C3 as stated is false at an empty page: `GET /items?limit=100&`
`offset=1` on a one-row table succeeds, but the `result` slice stays nil
and encodes as JSON `null` — there is no `records` array of length
`min(100, 1 - 1) = 0`. -/
theorem get_table_records_cex :
    (handleGetTable "items" "100" "1" (execList tbl1 100 1)).1 =
      respJson (Jval.obj [("response", Jval.obj [("records", Jval.null)])]) ∧
    ∀ rs : List Jval, Jval.null ≠ Jval.arr rs :=
  ⟨rfl, fun _ h => Jval.noConfusion h⟩

/-- Claim C3, amended: for every table and effective pagination values with a
non-empty page, `GET /{table}` returns `200` and a `records` array whose
length is `min(limit, available_rows - offset)`; when that minimum is `0`
the `records` field is JSON `null` (Go's nil-slice encoding), not an empty
array. -/
theorem get_table_records_len (t : String) (tbl : Table) (lim off : Nat)
    (h : 0 < min lim (tbl.rows.length - off)) :
    ∃ rs : List Jval,
      (handleGetTable t (toString lim) (toString off) (execList tbl lim off)).1 =
        respJson (Jval.obj [("response", Jval.obj [("records", Jval.arr rs)])]) ∧
      rs.length = min lim (tbl.rows.length - off) := by
  have hlen : ((tbl.rows.drop off).take lim).length =
      min lim (tbl.rows.length - off) := by
    simp [List.length_take, List.length_drop]
  rcases hpage : (tbl.rows.drop off).take lim with _ | ⟨r, rs0⟩
  · rw [hpage] at hlen
    simp at hlen
    omega
  · refine ⟨(r :: rs0).map (rowObj tbl.cols), ?_, ?_⟩
    · simp [handleGetTable, execList, hpage, listRows_none_cons, encodeRecords]
    · rw [List.length_map, ← hpage, hlen]

/-- Concrete instance of `get_table_records_len`: one row, limit `1`,
offset `0`. -/
theorem get_table_records_len_w :
    ∃ rs : List Jval,
      (handleGetTable "items" (toString 1) (toString 0) (execList tbl1 1 0)).1 =
        respJson (Jval.obj [("response", Jval.obj [("records", Jval.arr rs)])]) ∧
      rs.length = min 1 (tbl1.rows.length - 0) :=
  get_table_records_len "items" tbl1 1 0 (by decide)

/-- Claim C2 as stated is false on the order of the two statements:
`handleGetRecord` calls `db.QueryRow` (which executes the `SELECT`
immediately, deferring only its error to `Scan`) before it runs the
column-metadata query, so the `SELECT` is issued first, not second. -/
theorem get_record_order_cex :
    (handleGetRecord "items" "1" (Except.ok (some [Jval.int 1]))
        (Except.ok ["id"])).2.map Query.text =
      ["SELECT * FROM items WHERE id = $1", columnsMetaSQL] ∧
    ¬ ((handleGetRecord "items" "1" (Except.ok (some [Jval.int 1]))
        (Except.ok ["id"])).2.map Query.text =
      [columnsMetaSQL, "SELECT * FROM items WHERE id = $1"]) :=
  ⟨rfl, by decide⟩

/-- Claim C2, amended: `GET /{table}/{id}` issues the `SELECT` with `{id}` as
a bound parameter first and then the ColumnsOf metadata query (with the
table name bound), and the returned row is decoded into a map keyed by the
ColumnsOf column list, not by the SELECT result set's own columns. -/
theorem get_record_select_first (t id : String)
    (selectRes : Except String (Option (List Jval)))
    (columnsRes : Except String (List String)) :
    (handleGetRecord t id selectRes columnsRes).2 =
      [⟨"SELECT * FROM " ++ t ++ " WHERE id = $1", [Jval.str id]⟩,
       ⟨columnsMetaSQL, [Jval.str t]⟩] ∧
    ∀ cols vs, columnsRes = Except.ok cols → selectRes = Except.ok (some vs) →
      cols.length = vs.length →
      (handleGetRecord t id selectRes columnsRes).1 =
        respJson (Jval.obj [("response", Jval.obj [("record", rowObj cols vs)])]) := by
  refine ⟨rfl, ?_⟩
  rintro cols vs rfl rfl hlen
  simp [handleGetRecord, hlen]

/-- Concrete instance of `get_record_select_first`: `GET /items/1` with one
matching row decoded against the single metadata column `id`. -/
theorem get_record_select_first_w :
    (handleGetRecord "items" "1" (Except.ok (some [Jval.int 1]))
        (Except.ok ["id"])).1 =
      respJson (Jval.obj [("response", Jval.obj
        [("record", rowObj ["id"] [Jval.int 1])])]) :=
  (get_record_select_first "items" "1" (Except.ok (some [Jval.int 1]))
    (Except.ok ["id"])).2 ["id"] [Jval.int 1] rfl rfl rfl

/-- Claim C8: on a known table, a `SELECT` matching no row yields `404` with
the record-not-found error body; a failed metadata query, a deferred query
error, or a scan argument-count mismatch each yield `500` with the raw
error text as the body. -/
theorem get_record_errors (t id : String) :
    (∀ cols, (handleGetRecord t id (Except.ok none) (Except.ok cols)).1 =
        respText (jsonError "record not found") 404) ∧
    (∀ e selectRes, (handleGetRecord t id selectRes (Except.error e)).1 =
        respText e 500) ∧
    (∀ e cols, (handleGetRecord t id (Except.error e) (Except.ok cols)).1 =
        respText e 500) ∧
    (∀ cols vs, ¬ (cols.length = vs.length) →
        (handleGetRecord t id (Except.ok (some vs)) (Except.ok cols)).1 =
          respText (scanMismatch vs.length cols.length) 500) := by
  refine ⟨fun _ => rfl, fun _ _ => rfl, fun _ _ => rfl, fun cols vs h => ?_⟩
  simp [handleGetRecord, h]

/-- Concrete instance of `get_record_errors`: scanning one value into two
destination pointers yields the raw `database/sql` mismatch error. -/
theorem get_record_errors_w :
    (handleGetRecord "items" "1" (Except.ok (some [Jval.int 1]))
        (Except.ok ["a", "b"])).1 =
      respText (scanMismatch 1 2) 500 :=
  (get_record_errors "items" "1").2.2.2 ["a", "b"] [Jval.int 1] (by decide)

/-- Closed form of the `handlePutTable` loop: the clauses enumerate the
non-`id` fields with ascending parameter indices and the values are the
non-`id` field values in the same order. -/
theorem putLoop_eq (data : List (String × Jval)) (cs : List String)
    (vs : List Jval) :
    putLoop data cs vs =
      (cs ++ clausesFrom (vs.length + 1) (nonId data),
       vs ++ (nonId data).map Prod.snd) := by
  induction data generalizing cs vs with
  | nil => simp [putLoop, nonId, clausesFrom]
  | cons kv rest ih =>
    obtain ⟨k, v⟩ := kv
    by_cases h : (k == "id") = true
    · simp [putLoop, nonId, List.filter_cons, h, ih]
    · simp [putLoop, nonId, List.filter_cons, h, clausesFrom, ih,
        List.length_append]

/-- Every field of a list contributes one `k = $n` clause to `clausesFrom`. -/
theorem mem_clausesFrom (kv : String × Jval) :
    ∀ (l : List (String × Jval)) (n : Nat), kv ∈ l →
      ∃ m : Nat, kv.1 ++ " = $" ++ toString m ∈ clausesFrom n l := by
  intro l
  induction l with
  | nil => intro n h; cases h
  | cons a rest ih =>
    intro n h
    rcases List.mem_cons.mp h with rfl | h2
    · exact ⟨n, by simp [clausesFrom]⟩
    · obtain ⟨m, hm⟩ := ih (n + 1) h2
      exact ⟨m, by simp [clausesFrom, hm]⟩

/-- Claim C6: a `PUT /{table}` body with an `id` field issues exactly one
`UPDATE` whose SET clause covers every non-`id` body field with the values
as bound parameters, binds `id` as the final parameter referenced by the
`WHERE id = $N` clause, and on success returns `200` with the submitted
`id` echoed inside the response envelope. -/
theorem put_update_statement (t : String) (data : List (String × Jval))
    (idv : Jval) (hid : data.lookup "id" = some idv) :
    (∀ execRes, (handlePutTable t (some data) execRes).2 =
        [⟨"UPDATE " ++ t ++ " SET " ++
            String.intercalate ", " (clausesFrom 1 (nonId data)) ++
            " WHERE id = $" ++ toString ((nonId data).length + 1),
          (nonId data).map Prod.snd ++ [idv]⟩]) ∧
    (∀ kv, kv ∈ nonId data →
        ∃ n : Nat, kv.1 ++ " = $" ++ toString n ∈ clausesFrom 1 (nonId data)) ∧
    ((nonId data).map Prod.snd ++ [idv]).getLast? = some idv ∧
    (handlePutTable t (some data) (Except.ok ())).1 =
      ⟨200, Body.json (Jval.obj [("response", Jval.obj [("id", idv)])])⟩ := by
  have hp : putLoop data [] [] =
      (clausesFrom 1 (nonId data), (nonId data).map Prod.snd) := by
    simpa using putLoop_eq data [] []
  refine ⟨fun execRes => ?_, fun kv hkv => mem_clausesFrom kv (nonId data) 1 hkv,
    List.getLast?_concat _, ?_⟩
  · cases execRes <;> simp [handlePutTable, hid, hp, List.length_append]
  · simp [handlePutTable, hid, hp]

/-- Concrete instance of `put_update_statement`: body
`\x7b"id": 1, "title": "x"\x7d` returns the submitted id on success. -/
theorem put_update_statement_w :
    (handlePutTable "items" (some [("id", Jval.int 1), ("title", Jval.str "x")])
        (Except.ok ())).1 =
      ⟨200, Body.json (Jval.obj [("response", Jval.obj [("id", Jval.int 1)])])⟩ :=
  (put_update_statement "items" [("id", Jval.int 1), ("title", Jval.str "x")]
    (Jval.int 1) rfl).2.2.2

/-- Claim C7: on a known table, a body that does not decode as a JSON object
yields `400` "Invalid JSON" with no database query, and a decoded object
without an `id` key yields `400` "Missing 'id' field" with no database
query. -/
theorem put_rejects_bad_body (t : String) :
    (∀ execRes, handlePutTable t none execRes =
        (respText "Invalid JSON" 400, [])) ∧
    (∀ data execRes, data.lookup "id" = none →
        handlePutTable t (some data) execRes =
          (respText "Missing \x27id\x27 field" 400, [])) := by
  refine ⟨fun _ => rfl, fun data execRes h => ?_⟩
  simp [handlePutTable, h]

/-- Concrete instance of `put_rejects_bad_body`: a body with only a `title`
field. -/
theorem put_rejects_bad_body_w :
    handlePutTable "items" (some [("title", Jval.str "x")]) (Except.ok ()) =
      (respText "Missing \x27id\x27 field" 400, []) :=
  (put_rejects_bad_body "items").2 [("title", Jval.str "x")] (Except.ok ()) rfl

/-- Claim C9: for every Catalog state and every iteration order of its table
map, `GET /` answers `200` with the response envelope holding the table
names sorted lexicographically — two iteration orders of the same Catalog
produce identical responses. -/
theorem root_lists_sorted (l1 l2 : List String) (hperm : l1.Perm l2) :
    handleRoot l1 = handleRoot l2 ∧
    (handleRoot l1).1.status = 200 ∧
    ∃ ts : List String,
      (handleRoot l1).1.body = Body.json (Jval.obj [("response", Jval.obj
        [("tables", Jval.arr (ts.map Jval.str))])]) ∧
      ts.Sorted (fun a b => a ≤ b) ∧ ts.Perm l1 := by
  have hsort : l1.insertionSort (fun a b => a ≤ b) =
      l2.insertionSort (fun a b => a ≤ b) :=
    List.eq_of_perm_of_sorted
      (((List.perm_insertionSort _ l1).trans hperm).trans
        (List.perm_insertionSort _ l2).symm)
      (List.sorted_insertionSort _ l1) (List.sorted_insertionSort _ l2)
  exact ⟨by unfold handleRoot; rw [hsort], rfl,
    ⟨l1.insertionSort (fun a b => a ≤ b), rfl,
      List.sorted_insertionSort _ l1, List.perm_insertionSort _ l1⟩⟩

/-- Concrete instance of `root_lists_sorted`: the Catalog `{items, users}`
under its two iteration orders. -/
theorem root_lists_sorted_w :
    handleRoot ["users", "items"] = handleRoot ["items", "users"] ∧
    (handleRoot ["users", "items"]).1.status = 200 ∧
    ∃ ts : List String,
      (handleRoot ["users", "items"]).1.body = Body.json (Jval.obj [("response",
        Jval.obj [("tables", Jval.arr (ts.map Jval.str))])]) ∧
      ts.Sorted (fun a b => a ≤ b) ∧ ts.Perm ["users", "items"] :=
  root_lists_sorted ["users", "items"] ["items", "users"] (by decide)

end DbExp
